import Mathlib

/-!
Verification of the dependency-pin reconciliation algorithm of
`src/idiap_devtools/gitlab/release.py` (functions `_compatible_pins` and
`_pin_versions_of_packages_list`), shallowly embedded in Lean.

Modelling notes, fixed once and used throughout:

* A `pkg_resources.Requirement` is embedded as the `Requirement` structure
  below.  In `pkg_resources`, the attribute `extras` is always a tuple
  (possibly empty, never `None`) and `specs` is always a list, while
  `marker` and `url` are `None` when absent; the embedding mirrors this
  with `List`/`Option` fields.  The tuple `extras` and list `specs` are
  kept in parse order (CPython iterates the underlying sets in an
  unspecified order; every input considered here has at most one element,
  where the two agree).
* `marker` is kept as the raw marker text (Python stores a
  `packaging.markers.Marker`; `str(marker)` re-normalises spacing, which is
  irrelevant for the comparisons done here, always performed on identically
  spelled markers).
* `Requirement.parse` implements the PEP 508 fragment actually exercised by
  the pinning code: `name [extras] (specifiers | @ url) [; marker]`.  Name
  characters are approximated by the PEP 508 identifier alphabet and
  version payloads by the PEP 440 alphabet; marker text is taken verbatim.
* Python exceptions become the `PyError` sum type; messages are abstracted
  to the raise site (the string payload of a parse error records the
  offending input).
-/

namespace Release

/-- Python exceptions raised by the pinning code, one constructor per raise
site.  `typeErrorNoLen` is the `TypeError` raised by `len(desired_pin)` in
`_compatible_pins` when it receives a `pkg_resources.Requirement` (which has
no `__len__`), as happens at its unique call site, release.py:231. -/
inductive PyError where
  | requirementParseError (input : String)
  | notImplementedError
  | typeErrorNoLen
  | valueErrorIncompatible
  | valueErrorMarkerConflict
  | valueErrorExtrasConflict
deriving DecidableEq, Repr

/-- Space characters recognised by the declaration grammar. -/
def isSpaceChar (c : Char) : Bool := c = ' ' || c = '\t'

def dropSpaces (cs : List Char) : List Char := cs.dropWhile isSpaceChar

def trimSpaces (cs : List Char) : List Char :=
  ((dropSpaces cs).reverse.dropWhile isSpaceChar).reverse

/-- Characters allowed in a PEP 508 name, extra name, and in our
approximation of them. -/
def isNameChar (c : Char) : Bool := c.isAlphanum || c = '-' || c = '_' || c = '.'

/-- Characters allowed in a PEP 440 version payload. -/
def isVersionChar (c : Char) : Bool :=
  c.isAlphanum || c = '.' || c = '*' || c = '+' || c = '!' || c = '-' || c = '_'

def isOpChar (c : Char) : Bool :=
  c = '=' || c = '<' || c = '>' || c = '!' || c = '~'

/-- The version-specifier operators of PEP 440. -/
def isValidOp (op : List Char) : Bool :=
  op == ['=', '='] || op == ['>', '='] || op == ['<', '='] || op == ['>'] ||
  op == ['<'] || op == ['~', '='] || op == ['!', '='] || op == ['=', '=', '=']

/-- Embedding of `pkg_resources.safe_name`: replace every run of characters
outside `[A-Za-z0-9.]` by a single dash. -/
def safeNameAux : List Char → Bool → List Char
  | [], _ => []
  | c :: cs, inRun =>
    if c.isAlphanum || c = '.' then c :: safeNameAux cs false
    else if inRun then safeNameAux cs true
    else '-' :: safeNameAux cs true

def safeName (s : String) : String := (safeNameAux s.toList false).asString

def lowerStr (s : String) : String := (s.toList.map Char.toLower).asString

/-- Embedding of `pkg_resources.safe_extra`: replace each character outside
`[A-Za-z0-9.-]` by an underscore, then lowercase. -/
def safeExtra (s : String) : String :=
  lowerStr (s.toList.map (fun c =>
    if c.isAlphanum || c = '.' || c = '-' then c else '_')).asString

/-- A parsed dependency declaration, mirroring the attributes of
`pkg_resources.Requirement` used by the pinning code. -/
structure Requirement where
  name : String
  extras : List String
  specs : List (String × String)
  url : Option String
  marker : Option String
deriving DecidableEq, Repr

/-- The normalised dictionary key of a requirement:
`safe_name(name).lower()`. -/
def Requirement.key (r : Requirement) : String := lowerStr (safeName r.name)

/-- Parse one extras entry (the text between commas inside `[...]`). -/
def parseExtraPiece (piece : List Char) : Option String :=
  let t := trimSpaces piece
  if t.isEmpty then none
  else if t.all isNameChar then some (safeExtra t.asString) else none

/-- Parse the text between `[` and `]` into the extras list. -/
def parseExtrasInside (inside : List Char) : Option (List String) :=
  if (trimSpaces inside).isEmpty then some []
  else (inside.splitOn ',').mapM parseExtraPiece

/-- Parse one version specifier (the text between commas), e.g. `>= 1.2`. -/
def parseSpecPiece (piece : List Char) : Option (String × String) :=
  let t := trimSpaces piece
  let op := t.takeWhile isOpChar
  let rest := dropSpaces (t.drop op.length)
  if isValidOp op && !rest.isEmpty && rest.all isVersionChar then
    some (op.asString, rest.asString)
  else none

/-- Parse a comma-separated version-specifier region. -/
def parseSpecsRegion (region : List Char) : Option (List (String × String)) :=
  (region.splitOn ',').mapM parseSpecPiece

/-- Parse the text after `;` as an (opaque) environment marker. -/
def parseMarkerTail (cs : List Char) : Option String :=
  let t := trimSpaces cs
  if t.isEmpty then none else some t.asString

/-- Parse what follows the name and the optional extras of a declaration:
either nothing, a direct-reference `@ url`, a version-specifier list, or
directly a `; marker` tail (url and specifiers each optionally followed by
a marker).  `orig` is the whole input, recorded in parse errors. -/
def parseAfterExtras (orig : String) (name : List Char) (extras : List String)
    (rest : List Char) : Except PyError Requirement :=
  if rest.isEmpty then .ok ⟨name.asString, extras, [], none, none⟩
  else if rest.head? = some '@' then
    let r1 := dropSpaces rest.tail
    let url := r1.takeWhile (fun c => !(isSpaceChar c))
    let r2 := dropSpaces (r1.drop url.length)
    if url.isEmpty then .error (.requirementParseError orig)
    else if r2.isEmpty then .ok ⟨name.asString, extras, [], some url.asString, none⟩
    else if r2.head? = some ';' then
      match parseMarkerTail r2.tail with
      | some m => .ok ⟨name.asString, extras, [], some url.asString, some m⟩
      | none => .error (.requirementParseError orig)
    else .error (.requirementParseError orig)
  else if rest.head? = some ';' then
    match parseMarkerTail rest.tail with
    | some m => .ok ⟨name.asString, extras, [], none, some m⟩
    | none => .error (.requirementParseError orig)
  else
    let region := rest.takeWhile (fun c => c != ';')
    let after := rest.drop region.length
    match parseSpecsRegion region with
    | none => .error (.requirementParseError orig)
    | some specs =>
      if after.isEmpty then .ok ⟨name.asString, extras, specs, none, none⟩
      else
        match parseMarkerTail after.tail with
        | some m => .ok ⟨name.asString, extras, specs, none, some m⟩
        | none => .error (.requirementParseError orig)

/-- Embedding of `pkg_resources.Requirement.parse` for the grammar fragment
used by the pinning code.  On failure it returns the embedded
`RequirementParseError`. -/
def Requirement.parse (s : String) : Except PyError Requirement :=
  let cs := dropSpaces s.toList
  let name := cs.takeWhile isNameChar
  let rest := dropSpaces (cs.drop name.length)
  if name.isEmpty then .error (.requirementParseError s)
  else if rest.head? = some '[' then
    let r1 := rest.tail
    let inside := r1.takeWhile (fun c => c != ']')
    let r2 := r1.drop inside.length
    if r2.isEmpty then .error (.requirementParseError s)
    else
      match parseExtrasInside inside with
      | some extras => parseAfterExtras s name extras (dropSpaces r2.tail)
      | none => .error (.requirementParseError s)
  else parseAfterExtras s name [] rest

/-- Stable insertion of a string into a sorted list, used to embed Python's
`sorted` on the small string collections rendered by `__str__`. -/
def insertSorted (s : String) : List String → List String
  | [] => [s]
  | t :: ts => if s ≤ t then s :: t :: ts else t :: insertSorted s ts

def sortStrings (l : List String) : List String := l.foldr insertSorted []

/-- Embedding of `str()` on a requirement
(`packaging.requirements.Requirement.__str__`): name, bracketed sorted
extras when non-empty, the sorted comma-joined specifier set, `@ url`
(followed by a space when a marker follows), and `; marker`. -/
def Requirement.str (r : Requirement) : String :=
  r.name
    ++ (if r.extras.isEmpty then ""
        else "[" ++ String.intercalate "," (sortStrings r.extras) ++ "]")
    ++ String.intercalate "," (sortStrings (r.specs.map (fun s => s.1 ++ s.2)))
    ++ (match r.url with
        | some u => "@ " ++ u ++ (if r.marker.isSome then " " else "")
        | none => "")
    ++ (match r.marker with
        | some m => "; " ++ m
        | none => "")

/-- Embedding of `_compatible_pins` (release.py:96) as it behaves at its
unique call site, release.py:231: there `desired_pin` is bound to a
`pkg_resources.Requirement` (not to the `list[tuple[str, str]]` announced by
the signature) and `restriction` to the tuple `pkg_req.specs[0]`.  The guard
`restriction is None` is false for a tuple, so Python evaluates
`len(desired_pin)`, which raises `TypeError`: `Requirement` defines no
`__len__`.  (Were the guard `desired_pin[0] == "=="` ever reached, it would
compare an `(operator, version)` tuple against the string `"=="` and the
equality branch could still never run.)  A `restriction` of `None` returns
`True`, as in the source. -/
def compatible_pins (desired_pin : Requirement)
    (restriction : Option (String × String)) : Except PyError Bool :=
  match desired_pin, restriction with
  | _, none => .ok true
  | _, some _ => .error .typeErrorNoLen

/-- The `marker_str` field of release.py:249-251: built from the desired
pin's marker only; a marker carried just by the existing declaration never
reaches the reassembled text. -/
def markerStr (desired_pin : Requirement) : String :=
  match desired_pin.marker with
  | some m => "; " ++ m
  | none => ""

/-- The `extras_str` field of release.py:264-268.  In `pkg_resources` the
`extras` attribute is always a tuple, never `None`, so the guard
`desired_pin.extras is not None` always holds and the
`elif pkg_req.extras is not None` branch is dead: the field is always built
from the desired pin's extras. -/
def extrasStr (desired_pin : Requirement) : String :=
  "[" ++ String.intercalate "," desired_pin.extras ++ "]"

/-- The `specs_str` field of release.py:237:
`",".join("".join(s) for s in desired_pin.specs)`. -/
def specsJoin (specs : List (String × String)) : String :=
  String.intercalate "," (specs.map (fun s => s.1 ++ s.2))

/-- The `final_str` assembled at release.py:270-274, split as core plus
marker suffix. -/
def finalStrCore (pkg_req desired_pin : Requirement) (specs_str : String) : String :=
  match desired_pin.url with
  | some u => pkg_req.key ++ extrasStr desired_pin ++ "@ " ++ u ++ " "
  | none => pkg_req.key ++ extrasStr desired_pin ++ specs_str

def finalStr (pkg_req desired_pin : Requirement) (specs_str : String) : String :=
  finalStrCore pkg_req desired_pin specs_str ++ markerStr desired_pin

/-- The final `str(Requirement.parse(final_str))` of release.py:277; a parse
failure of the reassembled text would propagate as an exception. -/
def normalizePinned (s : String) : Except PyError String :=
  match Requirement.parse s with
  | .ok r => .ok r.str
  | .error e => .error e

/-- Lines 239-277 of release.py: the marker-conflict check, the
extras-conflict check, and the reassembly of the declaration text.  The
marker comparison is `str(desired) != str(pkg_req)` under both being
present; the extras comparison collapses to plain inequality because the
two `is not None` guards always hold (see `extrasStr`). -/
def buildPinnedString (pkg_req desired_pin : Requirement) (specs_str : String) :
    Except PyError String :=
  if desired_pin.marker ≠ none ∧ pkg_req.marker ≠ none ∧
      desired_pin.marker ≠ pkg_req.marker then
    .error .valueErrorMarkerConflict
  else if desired_pin.extras ≠ pkg_req.extras then
    .error .valueErrorExtrasConflict
  else normalizePinned (finalStr pkg_req desired_pin specs_str)

/-- The `dependencies_dict.get(pkg_req.key)` lookup of release.py:203 (the
dictionary is keyed by `d.key`; keys are unique once the duplicate check has
passed, so first match equals dictionary lookup). -/
def lookupKey (deps : List Requirement) (k : String) : Option Requirement :=
  deps.find? (fun d => d.key == k)

/-- The body of the `for package in packages_list` loop of release.py:188-277
for a single package: parse it, look up its constraint (absent constraint or
a constraint without specifiers leaves the package untouched), run the
compatibility check when both sides carry specifiers, and reassemble.  A
url-bearing package only triggers a log message at release.py:196 and is
still processed. -/
def pinOnePackage (dependencies_versions : List Requirement) (package : String) :
    Except PyError String :=
  match Requirement.parse package with
  | .error e => .error e
  | .ok pkg_req =>
    match lookupKey dependencies_versions pkg_req.key with
    | none => .ok package
    | some desired_pin =>
      if desired_pin.url.isSome then
        buildPinnedString pkg_req desired_pin ""
      else if desired_pin.specs.isEmpty then
        .ok package
      else if pkg_req.specs.length > 0 then
        match compatible_pins desired_pin pkg_req.specs.head? with
        | .error e => .error e
        | .ok true => buildPinnedString pkg_req desired_pin (specsJoin desired_pin.specs)
        | .ok false => .error .valueErrorIncompatible
      else buildPinnedString pkg_req desired_pin (specsJoin desired_pin.specs)

/-- The duplicate-constraint check of release.py:173-180: walk the
constraint list with the `seen` set, raising `NotImplementedError` on a
repeated key. -/
def checkDuplicateConstraintsAux : List Requirement → List String → Except PyError Unit
  | [], _ => .ok ()
  | d :: rest, seen =>
    if d.key ∈ seen then .error .notImplementedError
    else checkDuplicateConstraintsAux rest (d.key :: seen)

/-- Error-propagating map, embedding the `for` loop of release.py:188-277:
`results` only reaches the caller when every iteration completed without an
exception. -/
def mapExcept (f : α → Except ε β) : List α → Except ε (List β)
  | [] => .ok []
  | a :: as =>
    match f a with
    | .error e => .error e
    | .ok b =>
      match mapExcept f as with
      | .error e => .error e
      | .ok bs => .ok (b :: bs)

/-- Embedding of `_pin_versions_of_packages_list` (release.py:125-279):
duplicate-constraint check up front, then the pinning loop over the
packages. -/
def pin_versions_of_packages_list (packages_list : List String)
    (dependencies_versions : List Requirement) : Except PyError (List String) :=
  match checkDuplicateConstraintsAux dependencies_versions [] with
  | .error e => .error e
  | .ok _ => mapExcept (pinOnePackage dependencies_versions) packages_list

/-- Sanity check reproducing `test_pinning_no_constraints` from
`tests/test_release.py` (the only repo test whose expectations the code
meets). -/
theorem sanity_test_pinning_no_constraints :
    pin_versions_of_packages_list ["pkg-a", "pkg-b", "pkg-c", "pkg-d", "pkg-e"]
      [⟨"pkg-a", [], [("==", "1.2.3")], none, none⟩,
       ⟨"pkg-b", [], [(">=", "2.5")], none, none⟩,
       ⟨"pkg-d", [], [("~=", "2.0")], none, none⟩,
       ⟨"pkg-e", [], [], some "https://www.idiap.ch/dummy/pkg-e", none⟩,
       ⟨"pkg-z", [], [("==", "1.0.0")], none, none⟩] =
    .ok ["pkg-a==1.2.3", "pkg-b>=2.5", "pkg-c", "pkg-d~=2.0",
         "pkg-e@ https://www.idiap.ch/dummy/pkg-e"] := by
  rfl


/-! Auxiliary lemmas about the embedded operations. -/

theorem parseAfterExtras_error {orig : String} {name : List Char}
    {extras : List String} {rest : List Char} {e : PyError}
    (h : parseAfterExtras orig name extras rest = .error e) :
    e = .requirementParseError orig := by
  simp only [parseAfterExtras] at h
  repeat' split at h
  all_goals simp_all

theorem requirement_parse_error {s : String} {e : PyError}
    (h : Requirement.parse s = .error e) : e = .requirementParseError s := by
  simp only [Requirement.parse] at h
  repeat' split at h
  all_goals first
    | exact parseAfterExtras_error h
    | simp_all

theorem normalizePinned_error {s : String} {e : PyError}
    (h : normalizePinned s = .error e) : e = .requirementParseError s := by
  unfold normalizePinned at h
  split at h
  · cases h
  · rename_i e1 heq
    cases h
    exact requirement_parse_error heq

theorem mapExcept_ok_length {α β ε : Type} {f : α → Except ε β} :
    ∀ (l : List α) (res : List β), mapExcept f l = .ok res → res.length = l.length := by
  intro l
  induction l with
  | nil =>
    intro res h
    simp only [mapExcept] at h
    cases h
    rfl
  | cons a as ih =>
    intro res h
    simp only [mapExcept] at h
    split at h
    · cases h
    · split at h
      · cases h
      · rename_i bs hbs
        cases h
        simp [ih bs hbs]

theorem mapExcept_ok_get {α β ε : Type} {f : α → Except ε β} :
    ∀ (l : List α) (res : List β), mapExcept f l = .ok res →
      ∀ (i : Nat) (h1 : i < l.length) (h2 : i < res.length),
        f (l.get ⟨i, h1⟩) = .ok (res.get ⟨i, h2⟩) := by
  intro l
  induction l with
  | nil =>
    intro res h i h1 h2
    exact absurd h1 (by simp)
  | cons a as ih =>
    intro res h i h1 h2
    simp only [mapExcept] at h
    split at h
    · cases h
    · rename_i b hb
      split at h
      · cases h
      · rename_i bs hbs
        cases h
        cases i with
        | zero => exact hb
        | succ n =>
          exact ih bs hbs n (Nat.lt_of_succ_lt_succ h1) (Nat.lt_of_succ_lt_succ h2)

theorem mapExcept_first_error {α β ε : Type} {f : α → Except ε β} :
    ∀ (pre : List α) (bad : α) (tail : List α) (e : ε),
      (∀ p ∈ pre, ∃ r, f p = .ok r) → f bad = .error e →
      mapExcept f (pre ++ bad :: tail) = .error e := by
  intro pre
  induction pre with
  | nil =>
    intro bad tail e _ hbad
    simp only [List.nil_append, mapExcept, hbad]
  | cons a as ih =>
    intro bad tail e hpre hbad
    obtain ⟨r, hr⟩ := hpre a (by simp)
    simp only [List.cons_append, mapExcept, hr, List.append_eq]
    rw [ih bad tail e (fun p hp => hpre p (by simp [hp])) hbad]

theorem checkDup_ok (deps : List Requirement) :
    ∀ (seen : List String), checkDuplicateConstraintsAux deps seen = .ok () →
      (deps.map Requirement.key).Nodup ∧ ∀ d ∈ deps, d.key ∉ seen := by
  induction deps with
  | nil =>
    intro seen _
    exact ⟨List.nodup_nil, by simp⟩
  | cons d rest ih =>
    intro seen h
    simp only [checkDuplicateConstraintsAux] at h
    split at h
    · cases h
    · rename_i hmem
      obtain ⟨hnd, hseen⟩ := ih (d.key :: seen) h
      refine ⟨?_, ?_⟩
      · simp only [List.map_cons, List.nodup_cons]
        refine ⟨?_, hnd⟩
        intro hk
        obtain ⟨d2, hd2, hkeq⟩ := List.mem_map.mp hk
        exact (hseen d2 hd2) (by simp [hkeq])
      · intro d2 hd2
        rcases List.mem_cons.mp hd2 with h1 | h1
        · subst h1
          exact hmem
        · intro hc
          exact (hseen d2 h1) (List.mem_cons_of_mem _ hc)

theorem checkDup_error (deps : List Requirement) :
    ∀ (seen : List String) (e : PyError),
      checkDuplicateConstraintsAux deps seen = .error e → e = .notImplementedError := by
  induction deps with
  | nil =>
    intro seen e h
    cases h
  | cons d rest ih =>
    intro seen e h
    simp only [checkDuplicateConstraintsAux] at h
    split at h
    · cases h
      rfl
    · exact ih _ _ h

theorem checkDup_of_not_nodup (deps : List Requirement) (seen : List String)
    (hnd : ¬ (deps.map Requirement.key).Nodup) :
    checkDuplicateConstraintsAux deps seen = .error .notImplementedError := by
  cases hres : checkDuplicateConstraintsAux deps seen with
  | ok u =>
    cases u
    exact absurd (checkDup_ok deps seen hres).1 hnd
  | error e =>
    have hshape := checkDup_error deps seen e hres
    subst hshape
    rfl


/-! Claim theorems. -/

/-- C1: the claim states that, for a declaration that already carries
specifiers and a desired pin `== X`, `pin` raises `ConflictError` exactly
when `X` violates the declaration (and raises nothing when `X` satisfies
it).  The code instead raises `TypeError` in both cases: release.py:231
hands `_compatible_pins` a `Requirement` object and `len(desired_pin)` has
no meaning for it, so `pin(["pkg-a == 2.0"], [pkg-a == 1.2.3])` and the
compatible `pin(["pkg-a == 1.2.3"], [pkg-a == 1.2.3])` both fail with
`TypeError` — contradicting `tests/test_release.py`, which expects a
`ValueError` for the first call and success for the second. -/
theorem c1_conflict_check_raises_type_error :
    pin_versions_of_packages_list ["pkg-a == 2.0"]
      [⟨"pkg-a", [], [("==", "1.2.3")], none, none⟩] = .error .typeErrorNoLen ∧
    pin_versions_of_packages_list ["pkg-a == 1.2.3"]
      [⟨"pkg-a", [], [("==", "1.2.3")], none, none⟩] = .error .typeErrorNoLen :=
  ⟨rfl, rfl⟩

/-- C2: whenever `pin` succeeds, the output has the same length as the
input, the i-th output is the result of processing the i-th input
declaration, and every input whose normalized key is absent from the
constraint table is returned textually unmodified. -/
theorem c2_order_and_identity (packages_list : List String)
    (dependencies_versions : List Requirement) (res : List String)
    (h : pin_versions_of_packages_list packages_list dependencies_versions = .ok res) :
    res.length = packages_list.length ∧
    (∀ (i : Nat) (h1 : i < packages_list.length) (h2 : i < res.length),
      pinOnePackage dependencies_versions (packages_list.get ⟨i, h1⟩) =
        .ok (res.get ⟨i, h2⟩)) ∧
    (∀ (i : Nat) (h1 : i < packages_list.length) (h2 : i < res.length)
      (pkg_req : Requirement),
      Requirement.parse (packages_list.get ⟨i, h1⟩) = .ok pkg_req →
      lookupKey dependencies_versions pkg_req.key = none →
      res.get ⟨i, h2⟩ = packages_list.get ⟨i, h1⟩) := by
  have hmap : mapExcept (pinOnePackage dependencies_versions) packages_list = .ok res := by
    unfold pin_versions_of_packages_list at h
    split at h
    · cases h
    · exact h
  refine ⟨mapExcept_ok_length _ _ hmap, mapExcept_ok_get _ _ hmap, ?_⟩
  intro i h1 h2 pkg_req hparse hlook
  have hone := mapExcept_ok_get _ _ hmap i h1 h2
  have hid : pinOnePackage dependencies_versions (packages_list.get ⟨i, h1⟩) =
      .ok (packages_list.get ⟨i, h1⟩) := by
    simp only [pinOnePackage, hparse, hlook]
  rw [hid] at hone
  exact (Except.ok.inj hone).symm

theorem c2_order_and_identity_witness :
    pin_versions_of_packages_list ["pkg-a", "pkg-c"]
      [⟨"pkg-a", [], [("==", "1.2.3")], none, none⟩] = .ok ["pkg-a==1.2.3", "pkg-c"] ∧
    (["pkg-a==1.2.3", "pkg-c"] : List String).length =
      (["pkg-a", "pkg-c"] : List String).length ∧
    (["pkg-a==1.2.3", "pkg-c"] : List String).get ⟨1, one_lt_two⟩ =
      (["pkg-a", "pkg-c"] : List String).get ⟨1, one_lt_two⟩ :=
  ⟨rfl,
   (c2_order_and_identity ["pkg-a", "pkg-c"]
     [⟨"pkg-a", [], [("==", "1.2.3")], none, none⟩]
     ["pkg-a==1.2.3", "pkg-c"] rfl).1,
   (c2_order_and_identity ["pkg-a", "pkg-c"]
     [⟨"pkg-a", [], [("==", "1.2.3")], none, none⟩]
     ["pkg-a==1.2.3", "pkg-c"] rfl).2.2 1 one_lt_two one_lt_two
     ⟨"pkg-c", [], [], none, none⟩ rfl rfl⟩

/-- C3: the pin operation is all-or-nothing.  Once the duplicate check has
passed, if any single entry fails (parse error or conflict), the whole call
returns exactly that error, whatever entries come after it — the caller
never receives a partial result list (the `results` accumulator of the
loop is only returned after the last iteration). -/
theorem c3_all_or_nothing (dependencies_versions : List Requirement)
    (pre : List String) (bad : String) (tail : List String) (e : PyError)
    (hdup : checkDuplicateConstraintsAux dependencies_versions [] = .ok ())
    (hpre : ∀ p ∈ pre, ∃ r, pinOnePackage dependencies_versions p = .ok r)
    (hbad : pinOnePackage dependencies_versions bad = .error e) :
    pin_versions_of_packages_list (pre ++ bad :: tail) dependencies_versions =
      .error e := by
  unfold pin_versions_of_packages_list
  rw [hdup]
  exact mapExcept_first_error pre bad tail e hpre hbad

theorem c3_all_or_nothing_witness :
    pinOnePackage [⟨"pkg-a", [], [("==", "1.0")], none, none⟩] "pkg-a[test]" =
      .error .valueErrorExtrasConflict ∧
    pin_versions_of_packages_list ["pkg-c", "pkg-a[test]", "///"]
      [⟨"pkg-a", [], [("==", "1.0")], none, none⟩] =
      .error .valueErrorExtrasConflict :=
  ⟨rfl,
   c3_all_or_nothing _ ["pkg-c"] "pkg-a[test]" ["///"] _ rfl
     (by
       intro p hp
       simp only [List.mem_singleton] at hp
       subst hp
       exact ⟨"pkg-c", rfl⟩)
     rfl⟩

/-- C4: a constraint table with a repeated normalized key makes `pin` fail
with the duplicate-constraint error (the `NotImplementedError` of
release.py:177) on every packages sequence, before any package is examined:
the result does not depend on the packages at all, not even on whether they
parse. -/
theorem c4_duplicate_constraints (dependencies_versions : List Requirement)
    (packages_list : List String)
    (hdup : ¬ (dependencies_versions.map Requirement.key).Nodup) :
    pin_versions_of_packages_list packages_list dependencies_versions =
      .error .notImplementedError := by
  unfold pin_versions_of_packages_list
  rw [checkDup_of_not_nodup dependencies_versions [] hdup]

theorem c4_duplicate_constraints_witness :
    ¬ (([⟨"pkg-a", [], [("==", "1.0")], none, none⟩,
         ⟨"pkg-a", [], [("==", "2.0")], none, none⟩] : List Requirement).map
        Requirement.key).Nodup ∧
    pin_versions_of_packages_list ["///"]
      [⟨"pkg-a", [], [("==", "1.0")], none, none⟩,
       ⟨"pkg-a", [], [("==", "2.0")], none, none⟩] = .error .notImplementedError :=
  ⟨by decide, c4_duplicate_constraints _ _ (by decide)⟩

/-- C5: when the desired pin carries a url, the entry is rebuilt as the url
form `key ++ extras ++ "@ " ++ url` of the desired pin: the existing
declaration's version specifiers appear nowhere in the result and the
specifier-compatibility check is never consulted (the statement holds for
arbitrary `pkg_req.specs`, including ones that would conflict with — or,
in this code, crash on — any specifier pin). -/
theorem c5_url_pin_wins (dependencies_versions : List Requirement)
    (package : String) (pkg_req desired_pin : Requirement) (u : String)
    (hparse : Requirement.parse package = .ok pkg_req)
    (hlook : lookupKey dependencies_versions pkg_req.key = some desired_pin)
    (hurl : desired_pin.url = some u)
    (hm : ¬ (desired_pin.marker ≠ none ∧ pkg_req.marker ≠ none ∧
             desired_pin.marker ≠ pkg_req.marker))
    (hx : desired_pin.extras = pkg_req.extras) :
    pinOnePackage dependencies_versions package =
      normalizePinned (pkg_req.key ++ extrasStr desired_pin ++ "@ " ++ u ++ " "
        ++ markerStr desired_pin) := by
  simp only [pinOnePackage, hparse, hlook, hurl, Option.isSome_some, if_true]
  rw [buildPinnedString, if_neg hm, if_neg (by simp [hx])]
  simp only [finalStr, finalStrCore, hurl]

theorem c5_url_pin_wins_witness :
    Requirement.parse "pkg-e == 1.2" = .ok ⟨"pkg-e", [], [("==", "1.2")], none, none⟩ ∧
    pinOnePackage [⟨"pkg-e", [], [], some "https://www.idiap.ch/dummy/pkg-e", none⟩]
      "pkg-e == 1.2" =
      normalizePinned ((⟨"pkg-e", [], [("==", "1.2")], none, none⟩ : Requirement).key
        ++ extrasStr ⟨"pkg-e", [], [], some "https://www.idiap.ch/dummy/pkg-e", none⟩
        ++ "@ " ++ "https://www.idiap.ch/dummy/pkg-e" ++ " "
        ++ markerStr ⟨"pkg-e", [], [], some "https://www.idiap.ch/dummy/pkg-e", none⟩) ∧
    pinOnePackage [⟨"pkg-e", [], [], some "https://www.idiap.ch/dummy/pkg-e", none⟩]
      "pkg-e == 1.2" = .ok "pkg-e@ https://www.idiap.ch/dummy/pkg-e" :=
  ⟨rfl,
   c5_url_pin_wins _ _ _ _ _ rfl rfl rfl (by decide) rfl,
   rfl⟩

/-- C6 counterexample: a marker carried only by the existing declaration IS
dropped when the entry is rewritten, refuting "markers are never dropped":
pinning `pkg-a; python_version > "3"` with the markerless constraint
`pkg-a == 1.0` yields `pkg-a==1.0`, whose parse carries no marker. -/
theorem c6_marker_dropped_counterexample :
    pin_versions_of_packages_list ["pkg-a; python_version > \"3\""]
      [⟨"pkg-a", [], [("==", "1.0")], none, none⟩] = .ok ["pkg-a==1.0"] ∧
    Requirement.parse "pkg-a; python_version > \"3\"" =
      .ok ⟨"pkg-a", [], [], none, some "python_version > \"3\""⟩ ∧
    Requirement.parse "pkg-a==1.0" = .ok ⟨"pkg-a", [], [("==", "1.0")], none, none⟩ :=
  ⟨rfl, rfl, rfl⟩

/-- C6 (amended): the marker conflict fires exactly when both the existing
declaration and the desired pin carry markers that differ textually; a
marker carried by the desired pin is kept as the suffix of the reassembled
text; but the reassembled text ignores the existing declaration's marker
entirely, so a marker carried only by the existing declaration is dropped
from rewritten entries. -/
theorem c6_markers_amended (pkg_req desired_pin : Requirement) (specs_str : String) :
    (buildPinnedString pkg_req desired_pin specs_str = .error .valueErrorMarkerConflict
      ↔ desired_pin.marker ≠ none ∧ pkg_req.marker ≠ none ∧
        desired_pin.marker ≠ pkg_req.marker) ∧
    (∀ m, desired_pin.marker = some m →
      finalStr pkg_req desired_pin specs_str =
        finalStrCore pkg_req desired_pin specs_str ++ ("; " ++ m)) ∧
    (finalStr pkg_req desired_pin specs_str =
      finalStr { pkg_req with marker := none } desired_pin specs_str) := by
  refine ⟨⟨?_, ?_⟩, ?_, ?_⟩
  · intro h
    by_contra hc
    rw [buildPinnedString, if_neg hc] at h
    by_cases hx : desired_pin.extras ≠ pkg_req.extras
    · rw [if_pos hx] at h
      cases h
    · rw [if_neg hx] at h
      exact absurd (normalizePinned_error h) (by simp)
  · intro hc
    rw [buildPinnedString, if_pos hc]
  · intro m hm
    simp only [finalStr, markerStr, hm]
  · rfl

theorem c6_markers_amended_witness :
    buildPinnedString ⟨"pkg-a", [], [], none, some "python_version < \"3\""⟩
      ⟨"pkg-a", [], [("==", "1.0")], none, some "python_version > \"3\""⟩ "==1.0" =
      .error .valueErrorMarkerConflict ∧
    finalStr ⟨"pkg-a", [], [], none, some "python_version < \"3\""⟩
      ⟨"pkg-a", [], [("==", "1.0")], none, some "python_version > \"3\""⟩ "==1.0" =
      finalStrCore ⟨"pkg-a", [], [], none, some "python_version < \"3\""⟩
        ⟨"pkg-a", [], [("==", "1.0")], none, some "python_version > \"3\""⟩ "==1.0"
        ++ ("; " ++ "python_version > \"3\"") :=
  ⟨(c6_markers_amended _ _ _).1.mpr (by decide),
   (c6_markers_amended _ _ _).2.1 _ rfl⟩

/-- C7 counterexample: an entry where only the existing declaration carries
a (non-empty) extras set makes `pin` fail: `pkg_resources` extras are
always tuples, so the `is not None` guards of release.py:255-256 always
hold and `("test",) != ()` raises the extras conflict — refuting the claim
that such an entry does not fail and keeps its extras. -/
theorem c7_extras_conflict_counterexample :
    Requirement.parse "pkg-a[test]" = .ok ⟨"pkg-a", ["test"], [], none, none⟩ ∧
    pin_versions_of_packages_list ["pkg-a[test]"]
      [⟨"pkg-a", [], [("==", "1.0")], none, none⟩] =
      .error .valueErrorExtrasConflict :=
  ⟨rfl, rfl⟩

/-- C7 (amended): once the marker check has passed, the extras conflict
fires exactly when the two extras tuples differ — including when exactly
one of them is empty; and the reassembled text ignores the existing
declaration's extras entirely (it always carries the desired pin's
extras). -/
theorem c7_extras_amended (pkg_req desired_pin : Requirement) (specs_str : String)
    (hm : ¬ (desired_pin.marker ≠ none ∧ pkg_req.marker ≠ none ∧
             desired_pin.marker ≠ pkg_req.marker)) :
    (buildPinnedString pkg_req desired_pin specs_str = .error .valueErrorExtrasConflict
      ↔ desired_pin.extras ≠ pkg_req.extras) ∧
    (∀ x, finalStr pkg_req desired_pin specs_str =
      finalStr { pkg_req with extras := x } desired_pin specs_str) := by
  refine ⟨⟨?_, ?_⟩, ?_⟩
  · intro h
    rw [buildPinnedString, if_neg hm] at h
    by_cases hx : desired_pin.extras ≠ pkg_req.extras
    · exact hx
    · rw [if_neg hx] at h
      exact absurd (normalizePinned_error h) (by simp)
  · intro hx
    rw [buildPinnedString, if_neg hm, if_pos hx]
  · intro x
    rfl

theorem c7_extras_amended_witness :
    buildPinnedString ⟨"pkg-a", ["test"], [], none, none⟩
      ⟨"pkg-a", [], [("==", "1.0")], none, none⟩ "==1.0" =
      .error .valueErrorExtrasConflict :=
  (c7_extras_amended ⟨"pkg-a", ["test"], [], none, none⟩
    ⟨"pkg-a", [], [("==", "1.0")], none, none⟩ "==1.0" (by decide)).1.mpr (by decide)

/-- C8: the claim (and `test_pinning_with_compatible_constraints`) states
that `pin(["pkg-b == 2.8"], [pkg-b >= 2.5])` returns `"pkg-b == 2.8"`
unchanged with only an advisory.  The code instead raises `TypeError`: the
existing declaration carries a specifier, so release.py:231 calls
`_compatible_pins` with a `Requirement` object and `len(desired_pin)`
fails before any complex-pin advisory can be reached. -/
theorem c8_complex_pin_type_error :
    pin_versions_of_packages_list ["pkg-b == 2.8"]
      [⟨"pkg-b", [], [(">=", "2.5")], none, none⟩] = .error .typeErrorNoLen :=
  rfl

/-- C9: idempotence fails on the code.  With the conflict-free constraint
table `[pkg-a == 1.2.3]`, the first application pins `pkg-a` to
`pkg-a==1.2.3`, but applying `pin` to its own output raises `TypeError`
(the re-pinned entry now carries a specifier and hits the broken
`_compatible_pins` call), so `pin(pin(p, C), C) = pin(p, C)` does not
hold. -/
theorem c9_idempotence_fails :
    pin_versions_of_packages_list ["pkg-a"]
      [⟨"pkg-a", [], [("==", "1.2.3")], none, none⟩] = .ok ["pkg-a==1.2.3"] ∧
    pin_versions_of_packages_list ["pkg-a==1.2.3"]
      [⟨"pkg-a", [], [("==", "1.2.3")], none, none⟩] = .error .typeErrorNoLen :=
  ⟨rfl, rfl⟩

/-- C10: an existing direct-url declaration (url, hence no specifiers) whose
desired pin carries only version specifiers is not left alone: the entry is
rebuilt as `key ++ extras ++ specifiers` from the desired pin — the
existing url appears nowhere in the result (the release.py:196 log line
says "Ignoring" but there is no `continue`, only a warning). -/
theorem c10_url_declaration_replaced (dependencies_versions : List Requirement)
    (package : String) (pkg_req desired_pin : Requirement) (u : String)
    (hparse : Requirement.parse package = .ok pkg_req)
    (_hurl : pkg_req.url = some u)
    (hspecs : pkg_req.specs = [])
    (hextras : pkg_req.extras = [])
    (hlook : lookupKey dependencies_versions pkg_req.key = some desired_pin)
    (hdurl : desired_pin.url = none)
    (hdspecs : desired_pin.specs ≠ [])
    (hdextras : desired_pin.extras = [])
    (hdmarker : desired_pin.marker = none) :
    pinOnePackage dependencies_versions package =
      normalizePinned (pkg_req.key ++ extrasStr desired_pin
        ++ specsJoin desired_pin.specs ++ markerStr desired_pin) := by
  simp only [pinOnePackage, hparse, hlook, hdurl, Option.isSome_none, if_false,
    Bool.false_eq_true, List.isEmpty_eq_true, hdspecs, hspecs, List.length_nil,
    gt_iff_lt, Nat.lt_irrefl, if_true]
  rw [buildPinnedString, if_neg (by simp [hdmarker]),
    if_neg (by simp [hdextras, hextras])]
  simp only [finalStr, finalStrCore, hdurl]

theorem c10_url_declaration_replaced_witness :
    Requirement.parse "pkg-a@ https://www.idiap.ch/x" =
      .ok ⟨"pkg-a", [], [], some "https://www.idiap.ch/x", none⟩ ∧
    pinOnePackage [⟨"pkg-a", [], [("==", "1.0")], none, none⟩]
      "pkg-a@ https://www.idiap.ch/x" =
      normalizePinned
        ((⟨"pkg-a", [], [], some "https://www.idiap.ch/x", none⟩ : Requirement).key
          ++ extrasStr ⟨"pkg-a", [], [("==", "1.0")], none, none⟩
          ++ specsJoin [("==", "1.0")]
          ++ markerStr ⟨"pkg-a", [], [("==", "1.0")], none, none⟩) ∧
    pin_versions_of_packages_list ["pkg-a@ https://www.idiap.ch/x"]
      [⟨"pkg-a", [], [("==", "1.0")], none, none⟩] = .ok ["pkg-a==1.0"] :=
  ⟨rfl,
   c10_url_declaration_replaced _ _ _ _ _ rfl rfl rfl rfl rfl rfl (by decide) rfl rfl,
   rfl⟩

end Release
